import Mathlib

/-!
Verification of the civil-time conversion shim in src/src/time_helpers.c.

The C file is platform glue: the calendar mathematics itself is delegated to
the host's time library (gmtime_r, localtime_r, timegm / mktime).  The shim
functions rust_time_gmtime, rust_time_localtime, rust_time_timegm and the
Android timegm fallback are embedded directly from the source.  The host
calendar primitives are not part of the repository, so they are modelled from
the specification's contract (proleptic Gregorian calendar over the Unix
epoch, zero offset for UTC, month-carry normalisation for the encode
direction); the model uses the standard era/century/quadrennium/year layered
decomposition of the 146097-day Gregorian cycle.
-/

/-! ## Modelled host calendar core -/

/-- Modelled from the spec: the host calendar library's conversion from a
proleptic-Gregorian date (year, month 1..12, day of month) to days since
1970-01-01.  Out-of-range day values are carried, matching the normalising
behaviour of host mktime/timegm described in the spec. -/
def days_from_civil (y m d : Int) : Int :=
  let yy := if m ≤ 2 then y - 1 else y
  let era := yy / 400
  let yoe := yy - era * 400
  let mp := if m > 2 then m - 3 else m + 9
  let doy := (153 * mp + 2) / 5 + d - 1
  let doe := yoe * 365 + yoe / 4 - yoe / 100 + doy
  era * 146097 + doe - 719468

/-- Modelled from the spec: 400-year era index of a day count (eras are
anchored at 0000-03-01, 719468 days before the epoch). -/
def eraOf (z : Int) : Int := (z + 719468) / 146097

/-- Modelled from the spec: day within the 146097-day era, in 0..146096. -/
def doeOf (z : Int) : Int := (z + 719468) % 146097

/-- Modelled from the spec: century within the era, in 0..3 (the closing day
of the era belongs to century 3, hence the clamp). -/
def centOf (z : Int) : Int := min (doeOf z / 36524) 3

/-- Modelled from the spec: day within the century, in 0..36524. -/
def centRemOf (z : Int) : Int := doeOf z - 36524 * centOf z

/-- Modelled from the spec: four-year block within the century, in 0..24. -/
def quadOf (z : Int) : Int := centRemOf z / 1461

/-- Modelled from the spec: day within the four-year block, in 0..1460. -/
def quadRemOf (z : Int) : Int := centRemOf z - 1461 * quadOf z

/-- Modelled from the spec: year within the four-year block, in 0..3 (day
1460 belongs to year 3, the leap year, hence the clamp). -/
def yrOf (z : Int) : Int := min (quadRemOf z / 365) 3

/-- Modelled from the spec: day of the March-anchored year, in 0..365. -/
def doyOf (z : Int) : Int := quadRemOf z - 365 * yrOf z

/-- Modelled from the spec: year of the era, in 0..399. -/
def yoeOf (z : Int) : Int := 100 * centOf z + 4 * quadOf z + yrOf z

/-- Modelled from the spec: March-anchored month index, in 0..11. -/
def mpOf (z : Int) : Int := (5 * doyOf z + 2) / 153

/-- Modelled from the spec: day of month, in 1..31. -/
def dayOf (z : Int) : Int := doyOf z - (153 * mpOf z + 2) / 5 + 1

/-- Modelled from the spec: calendar month, in 1..12. -/
def monthOf (z : Int) : Int := if mpOf z < 10 then mpOf z + 3 else mpOf z - 9

/-- Modelled from the spec: calendar year of a day count, January-anchored. -/
def yearOf (z : Int) : Int :=
  yoeOf z + 400 * eraOf z + (if monthOf z ≤ 2 then 1 else 0)

/-- Modelled from the spec: the host calendar library's conversion from days
since the epoch to a proleptic-Gregorian date. -/
def civil_from_days (z : Int) : Int × Int × Int := (yearOf z, monthOf z, dayOf z)

/-- Modelled from the spec: the C struct tm of the host time library.  The
tm_gmtoff field is the glibc extension read on the main Unix path of
rust_time_localtime. -/
structure tm where
  tm_sec : Int
  tm_min : Int
  tm_hour : Int
  tm_mday : Int
  tm_mon : Int
  tm_year : Int
  tm_wday : Int
  tm_yday : Int
  tm_isdst : Int
  tm_gmtoff : Int
deriving DecidableEq, Repr

/-- Modelled from the spec: the host gmtime_r behind the GMTIME macro (the
platform decode-UTC primitive, missing from src/).  It fills every calendar
field from the proleptic Gregorian calendar at zero offset and fails exactly
when the broken-down year does not fit the int tm_year field, the documented
overflow failure of the host call. -/
def GMTIME (s : Int) : Option tm :=
  let dys := s / 86400
  let sod := s % 86400
  if yearOf dys - 1900 < -2147483648 ∨ 2147483647 < yearOf dys - 1900 then
    none
  else
    some { tm_sec := sod % 60
           tm_min := sod / 60 % 60
           tm_hour := sod / 3600
           tm_mday := dayOf dys
           tm_mon := monthOf dys - 1
           tm_year := yearOf dys - 1900
           tm_wday := (dys + 4) % 7
           tm_yday := dys - days_from_civil (yearOf dys) 1 1
           tm_isdst := 0
           tm_gmtoff := 0 }

/-- Modelled from the spec: the host timegm behind the TIMEGM macro (the
platform encode-UTC primitive, missing from src/).  It interprets the
broken-down fields as UTC, normalising out-of-range fields by carrying
(months into years, days, hours, minutes and seconds linearly), and ignores
tm_wday, tm_yday, tm_isdst and tm_gmtoff. -/
def TIMEGM (t : tm) : Int :=
  days_from_civil (t.tm_year + 1900 + t.tm_mon / 12) (t.tm_mon % 12 + 1)
      t.tm_mday * 86400 +
    t.tm_hour * 3600 + t.tm_min * 60 + t.tm_sec

/-- Modelled from the spec: the host's configured local zone, an external
oracle giving, for an instant, the UTC offset in seconds east and the DST
flag in effect, or nothing when the platform cannot resolve a local time. -/
structure ZoneRule where
  rule : Int → Option (Int × Int)

/-- Modelled from the spec: the host localtime_r behind the LOCALTIME macro
(the platform decode-local primitive, missing from src/).  Local decoding is
UTC decoding of the offset-shifted instant, with the applied offset and DST
flag recorded in the result; a null result of the zone oracle or field
overflow is the null return of the host call. -/
def LOCALTIME (zr : ZoneRule) (s : Int) : Option tm :=
  match zr.rule s with
  | none => none
  | some (gmtoff, dstflag) =>
    match GMTIME (s + gmtoff) with
    | none => none
    | some t => some { t with tm_isdst := dstflag, tm_gmtoff := gmtoff }

/-! ## The shim, embedded from src/src/time_helpers.c -/

/-- The rust_time_tm record of time_helpers.c lines 67-79 (int32_t fields,
modelled as Int; no shim operation overflows them when the host call
succeeds). -/
structure rust_time_tm where
  tm_sec : Int
  tm_min : Int
  tm_hour : Int
  tm_mday : Int
  tm_mon : Int
  tm_year : Int
  tm_wday : Int
  tm_yday : Int
  tm_isdst : Int
  tm_utcoff : Int
  tm_nsec : Int
deriving DecidableEq, Repr

/-- rust_time_tm_to_tm, lines 81-92: memset the struct tm to zero (so
tm_gmtoff is 0), then copy the nine standard fields; tm_utcoff and tm_nsec
are dropped. -/
def rust_time_tm_to_tm (in_tm : rust_time_tm) : tm :=
  { tm_sec := in_tm.tm_sec
    tm_min := in_tm.tm_min
    tm_hour := in_tm.tm_hour
    tm_mday := in_tm.tm_mday
    tm_mon := in_tm.tm_mon
    tm_year := in_tm.tm_year
    tm_wday := in_tm.tm_wday
    tm_yday := in_tm.tm_yday
    tm_isdst := in_tm.tm_isdst
    tm_gmtoff := 0 }

/-- tm_to_rust_tm, lines 94-109: copy the nine standard fields and take the
offset and nanosecond count from the extra arguments. -/
def tm_to_rust_tm (in_tm : tm) (utcoff nsec : Int) : rust_time_tm :=
  { tm_sec := in_tm.tm_sec
    tm_min := in_tm.tm_min
    tm_hour := in_tm.tm_hour
    tm_mday := in_tm.tm_mday
    tm_mon := in_tm.tm_mon
    tm_year := in_tm.tm_year
    tm_wday := in_tm.tm_wday
    tm_yday := in_tm.tm_yday
    tm_isdst := in_tm.tm_isdst
    tm_utcoff := utcoff
    tm_nsec := nsec }

/-- rust_time_gmtime, lines 144-151, on a host whose time_t is 64-bit.  The
return value of GMTIME is ignored by the C code, so when the host call fails
the local struct tm keeps its indeterminate initial contents, modelled by the
explicit uninit argument. -/
def rust_time_gmtime (uninit : tm) (sec nsec : Int) : rust_time_tm :=
  match GMTIME sec with
  | some t => tm_to_rust_tm t 0 nsec
  | none => tm_to_rust_tm uninit 0 nsec

/-- Conversion of an int64 value to a 32-bit time_t, as performed by the
declaration time_t s = sec on line 147 and line 156 when the host's time_t
is 32 bits wide: two's-complement truncation. -/
def wrap32 (x : Int) : Int := (x + 2147483648) % 4294967296 - 2147483648

/-- rust_time_gmtime, lines 144-151, on a host whose time_t is 32-bit: the
seconds value is silently truncated before the host call. -/
def rust_time_gmtime_time32 (uninit : tm) (sec nsec : Int) : rust_time_tm :=
  match GMTIME (wrap32 sec) with
  | some t => tm_to_rust_tm t 0 nsec
  | none => tm_to_rust_tm uninit 0 nsec

/-- rust_time_localtime, lines 153-169, on the main Unix path (utcoff read
from tm_gmtoff).  Returns the int32_t status and the contents of *timeptr
after the call; on the null path the function returns 0 before writing. -/
def rust_time_localtime (zr : ZoneRule) (sec nsec : Int)
    (timeptr : rust_time_tm) : Int × rust_time_tm :=
  match LOCALTIME zr sec with
  | none => (0, timeptr)
  | some t => (1, tm_to_rust_tm t t.tm_gmtoff nsec)

/-- rust_time_timegm, lines 171-176: convert the record to a struct tm and
hand it to the host TIMEGM. -/
def rust_time_timegm (timeptr : rust_time_tm) : Int :=
  TIMEGM (rust_time_tm_to_tm timeptr)

/-- The timegm fallback for Android API level below 21, lines 45-62.  The
process environment is modelled by the value of TZ (getenv and strdup read
it, setenv with overwrite 1 replaces it, unsetenv clears it), and the host
mktime, which reads the ambient TZ, is the oracle argument mk.  The result
pairs the returned time with the final TZ value. -/
def timegm (mk : Option String → tm → Int) (env : Option String) (t : tm) :
    Int × Option String :=
  let tz := env
  let env1 : Option String := some ""
  let ret := mk env1 t
  let env2 : Option String :=
    match tz with
    | some v => some v
    | none => none
  (ret, env2)

/-! ## Spec-level wrappers -/

/-- Modelled from the spec: an instant, signed 64-bit seconds since the epoch
plus a nanosecond fraction. -/
structure Instant where
  seconds : Int
  nanoseconds : Int
deriving DecidableEq, Repr

/-- Modelled from the spec: decode_utc is rust_time_gmtime. -/
def decode_utc (uninit : tm) (i : Instant) : rust_time_tm :=
  rust_time_gmtime uninit i.seconds i.nanoseconds

/-- Modelled from the spec: encode_utc is rust_time_timegm for the seconds,
and the caller-side pairing (missing from src/, which only returns int64
seconds) carries the input record's tm_nsec unchanged into the fractional
field of the resulting instant. -/
def encode_utc (t : rust_time_tm) : Instant :=
  ⟨rust_time_timegm t, t.tm_nsec⟩

/-- A zeroed struct tm, standing for one possible content of the
uninitialised stack variable of rust_time_gmtime. -/
def tmZero : tm := ⟨0, 0, 0, 0, 0, 0, 0, 0, 0, 0⟩

/-- A second possible content of the uninitialised stack variable. -/
def tmJunk : tm := ⟨7, 7, 7, 7, 7, 7, 7, 7, 7, 7⟩

/-- A sample prior content of the caller's output record. -/
def rtmPrior : rust_time_tm := ⟨9, 8, 7, 6, 5, 4, 3, 2, 1, 60, 11⟩

/-- A zone oracle that never resolves, the null-returning platform call. -/
def zrNone : ZoneRule := ⟨fun _ => none⟩

/-- A zone oracle with a fixed one-hour DST offset east of UTC. -/
def zrEast : ZoneRule := ⟨fun _ => some (3600, 1)⟩

/-- The broken-down local time zrEast produces for the epoch instant:
1970-01-01 01:00:00 at offset 3600 with the DST flag set. -/
def tmEast : tm := ⟨0, 0, 1, 1, 0, 70, 4, 0, 1, 3600⟩

/-- A sample input record for the encode direction. -/
def rtmA : rust_time_tm := ⟨30, 45, 12, 15, 5, 123, 2, 165, 1, 7200, 999⟩

/-- The same record as rtmA except for tm_isdst and tm_utcoff. -/
def rtmB : rust_time_tm := ⟨30, 45, 12, 15, 5, 123, 2, 165, 0, -3600, 999⟩

/-! ## Calendar lemmas for the modelled host core -/

theorem doe_bounds (z : Int) : 0 ≤ doeOf z ∧ doeOf z ≤ 146096 := by
  unfold doeOf; omega

theorem era_doe (z : Int) : z + 719468 = 146097 * eraOf z + doeOf z := by
  unfold eraOf doeOf; omega

theorem cent_bounds (z : Int) : 0 ≤ centOf z ∧ centOf z ≤ 3 := by
  have := doe_bounds z; unfold centOf; omega

theorem centRem_bounds (z : Int) : 0 ≤ centRemOf z ∧ centRemOf z ≤ 36524 := by
  have := doe_bounds z; unfold centRemOf centOf; omega

theorem quad_bounds (z : Int) : 0 ≤ quadOf z ∧ quadOf z ≤ 24 := by
  have := centRem_bounds z; unfold quadOf; omega

theorem quadRem_bounds (z : Int) : 0 ≤ quadRemOf z ∧ quadRemOf z ≤ 1460 := by
  have := centRem_bounds z; unfold quadRemOf quadOf; omega

theorem yr_bounds (z : Int) : 0 ≤ yrOf z ∧ yrOf z ≤ 3 := by
  have := quadRem_bounds z; unfold yrOf; omega

theorem doy_bounds (z : Int) : 0 ≤ doyOf z ∧ doyOf z ≤ 365 := by
  have := quadRem_bounds z; unfold doyOf yrOf; omega

theorem doe_decomp (z : Int) :
    doeOf z = 36524 * centOf z + 1461 * quadOf z + 365 * yrOf z + doyOf z := by
  unfold doyOf quadRemOf centRemOf; ring

theorem yoe_bounds (z : Int) : 0 ≤ yoeOf z ∧ yoeOf z ≤ 399 := by
  have h1 := cent_bounds z; have h2 := quad_bounds z; have h3 := yr_bounds z
  unfold yoeOf; omega

theorem dys_yoe (z : Int) :
    365 * yoeOf z + yoeOf z / 4 - yoeOf z / 100 =
      36524 * centOf z + 1461 * quadOf z + 365 * yrOf z := by
  have h1 := cent_bounds z; have h2 := quad_bounds z; have h3 := yr_bounds z
  unfold yoeOf; omega

theorem mp_bounds (z : Int) : 0 ≤ mpOf z ∧ mpOf z ≤ 11 := by
  have := doy_bounds z; unfold mpOf; omega

theorem doy_reconstruct (z : Int) :
    (153 * mpOf z + 2) / 5 + dayOf z - 1 = doyOf z := by
  unfold dayOf; ring

theorem month_bounds (z : Int) : 1 ≤ monthOf z ∧ monthOf z ≤ 12 := by
  have := mp_bounds z; unfold monthOf; split <;> omega

theorem month_shift (z : Int) :
    (if monthOf z > 2 then monthOf z - 3 else monthOf z + 9) = mpOf z := by
  have := mp_bounds z; unfold monthOf; split_ifs <;> omega

theorem days_from_civil_inv (z : Int) :
    days_from_civil (yearOf z) (monthOf z) (dayOf z) = z := by
  have hera := era_doe z
  have hdoe := doe_decomp z
  have hyoe := yoe_bounds z
  have hdys := dys_yoe z
  have hmsh := month_shift z
  have hdoy := doy_reconstruct z
  have hyr : yearOf z = yoeOf z + 400 * eraOf z + (if monthOf z ≤ 2 then 1 else 0) := rfl
  simp only [days_from_civil]
  split_ifs at hmsh hyr ⊢ <;> omega

theorem TIMEGM_GMTIME (s : Int) (t : tm) (h : GMTIME s = some t) : TIMEGM t = s := by
  have hmb := month_bounds (s / 86400)
  simp only [GMTIME] at h
  split at h
  · exact absurd h (by simp)
  · rw [Option.some.injEq] at h
    subst h
    unfold TIMEGM
    dsimp only
    rw [show (monthOf (s / 86400) - 1) / 12 = 0 by omega,
      show (monthOf (s / 86400) - 1) % 12 + 1 = monthOf (s / 86400) by omega,
      show yearOf (s / 86400) - 1900 + 1900 + 0 = yearOf (s / 86400) by ring,
      days_from_civil_inv (s / 86400)]
    omega

theorem rust_time_timegm_tm_to_rust (x : tm) (u n : Int) :
    rust_time_timegm (tm_to_rust_tm x u n) = TIMEGM x := rfl

/-! ## The claims -/

/-- C1: for every instant whose seconds are in the host-supported range
(the host UTC decode succeeds), encoding the result of decoding it in UTC
returns the original instant, seconds and nanosecond fraction alike. -/
theorem utc_round_trip (uninit : tm) (i : Instant)
    (h : (GMTIME i.seconds).isSome = true) :
    encode_utc (decode_utc uninit i) = i := by
  obtain ⟨s, n⟩ := i
  obtain ⟨t, ht⟩ := Option.isSome_iff_exists.mp h
  unfold decode_utc rust_time_gmtime
  dsimp only at ht ⊢
  rw [ht]
  show (⟨TIMEGM (rust_time_tm_to_tm (tm_to_rust_tm t 0 n)), n⟩ : Instant) = ⟨s, n⟩
  rw [show TIMEGM (rust_time_tm_to_tm (tm_to_rust_tm t 0 n)) = TIMEGM t from rfl,
    TIMEGM_GMTIME s t ht]

theorem utc_round_trip_witness :
    (GMTIME (0 : Int)).isSome = true ∧
      encode_utc (decode_utc tmZero ⟨0, 123⟩) = ⟨0, 123⟩ :=
  ⟨by decide, utc_round_trip tmZero ⟨0, 123⟩ (by decide)⟩

/-- C2: rust_time_localtime returns 0 exactly when the platform LOCALTIME
call returns a null result, leaving the caller's record untouched, and on
success returns 1 with the record fully populated from the platform result
and the nanosecond argument. -/
theorem localtime_error_surfaced (zr : ZoneRule) (s n : Int)
    (ptr : rust_time_tm) :
    ((rust_time_localtime zr s n ptr).1 = 0 ↔ LOCALTIME zr s = none) ∧
    ((rust_time_localtime zr s n ptr).1 = 0 →
      (rust_time_localtime zr s n ptr).2 = ptr) ∧
    ∀ t, LOCALTIME zr s = some t →
      rust_time_localtime zr s n ptr = (1, tm_to_rust_tm t t.tm_gmtoff n) := by
  unfold rust_time_localtime
  cases h : LOCALTIME zr s with
  | none => simp
  | some t0 =>
    refine ⟨by simp, by simp, ?_⟩
    intro t ht
    rw [Option.some.injEq] at ht
    rw [ht]

/-- C3 is a code bug: on a host whose time_t is 32 bits wide, the out-of-range
seconds value 4294967296 is silently truncated by the conversion on line 147
and decoded exactly as the in-range instant 0, the epoch, with no clamping
and no error signal: the decoded year field reads 70. -/
theorem gmtime_time32_wraps :
    rust_time_gmtime_time32 tmZero 4294967296 0 = rust_time_gmtime tmZero 0 0 ∧
    (rust_time_gmtime_time32 tmZero 4294967296 0).tm_year = 70 := by decide

/-- C4: the record produced by rust_time_gmtime always carries a zero
tm_utcoff, on the success and on the failure path alike. -/
theorem gmtime_utcoff_zero (uninit : tm) (sec nsec : Int) :
    (rust_time_gmtime uninit sec nsec).tm_utcoff = 0 := by
  unfold rust_time_gmtime
  cases GMTIME sec <;> rfl

/-- C5: nanoseconds pass through both directions of the UTC conversion
unchanged: decoding copies the valid nanosecond argument into tm_nsec, and
encoding returns the input record's tm_nsec as the fractional field. -/
theorem nanosecond_passthrough (uninit : tm) (s n : Int) (t : rust_time_tm)
    (h1 : 0 ≤ n) (h2 : n ≤ 999999999) :
    (rust_time_gmtime uninit s n).tm_nsec = n ∧
    (encode_utc t).nanoseconds = t.tm_nsec := by
  refine ⟨?_, rfl⟩
  unfold rust_time_gmtime
  cases GMTIME s <;> rfl

theorem nanosecond_passthrough_witness :
    (0 : Int) ≤ 555 ∧ (555 : Int) ≤ 999999999 ∧
    ((rust_time_gmtime tmZero 0 555).tm_nsec = 555 ∧
      (encode_utc rtmPrior).nanoseconds = rtmPrior.tm_nsec) :=
  ⟨by decide, by decide,
    nanosecond_passthrough tmZero 0 555 rtmPrior (by decide) (by decide)⟩

/-- C6: decoding the epoch instant, seconds 0 and nanoseconds 0, yields
1970-01-01 00:00:00, a Thursday: year 70, month 0, day of month 1, hour 0,
minute 0, second 0, weekday 4, day of year 0. -/
theorem epoch_decode :
    (rust_time_gmtime tmZero 0 0).tm_year = 70 ∧
    (rust_time_gmtime tmZero 0 0).tm_mon = 0 ∧
    (rust_time_gmtime tmZero 0 0).tm_mday = 1 ∧
    (rust_time_gmtime tmZero 0 0).tm_hour = 0 ∧
    (rust_time_gmtime tmZero 0 0).tm_min = 0 ∧
    (rust_time_gmtime tmZero 0 0).tm_sec = 0 ∧
    (rust_time_gmtime tmZero 0 0).tm_wday = 4 ∧
    (rust_time_gmtime tmZero 0 0).tm_yday = 0 := by decide

/-- C7: rust_time_timegm ignores the supplied tm_utcoff and tm_isdst: two
input records equal in every other field produce the same epoch seconds. -/
theorem timegm_ignores_offset_and_dst (a b : rust_time_tm)
    (h1 : a.tm_sec = b.tm_sec) (h2 : a.tm_min = b.tm_min)
    (h3 : a.tm_hour = b.tm_hour) (h4 : a.tm_mday = b.tm_mday)
    (h5 : a.tm_mon = b.tm_mon) (h6 : a.tm_year = b.tm_year)
    (h7 : a.tm_wday = b.tm_wday) (h8 : a.tm_yday = b.tm_yday)
    (h9 : a.tm_nsec = b.tm_nsec) :
    rust_time_timegm a = rust_time_timegm b := by
  unfold rust_time_timegm rust_time_tm_to_tm TIMEGM
  dsimp only
  rw [h1, h2, h3, h4, h5, h6]

theorem timegm_ignores_offset_and_dst_witness :
    rust_time_timegm rtmA = rust_time_timegm rtmB :=
  timegm_ignores_offset_and_dst rtmA rtmB rfl rfl rfl rfl rfl rfl rfl rfl rfl

/-- C8: whenever local resolution succeeds, the reported tm_utcoff equals the
difference between the local calendar fields re-encoded as UTC and the input
epoch seconds: the signed offset actually applied, east positive. -/
theorem localtime_offset_is_applied_shift (zr : ZoneRule) (s n : Int)
    (ptr : rust_time_tm) (t : tm) (h : LOCALTIME zr s = some t) :
    (rust_time_localtime zr s n ptr).1 = 1 ∧
    rust_time_timegm (rust_time_localtime zr s n ptr).2 =
      s + (rust_time_localtime zr s n ptr).2.tm_utcoff := by
  unfold rust_time_localtime
  rw [h]
  dsimp only
  refine ⟨rfl, ?_⟩
  unfold LOCALTIME at h
  cases hz : zr.rule s with
  | none => simp [hz] at h
  | some p =>
    obtain ⟨o, d⟩ := p
    rw [hz] at h
    dsimp only at h
    cases hg : GMTIME (s + o) with
    | none => simp [hg] at h
    | some t0 =>
      rw [hg] at h
      dsimp only at h
      rw [Option.some.injEq] at h
      subst h
      rw [rust_time_timegm_tm_to_rust]
      show TIMEGM { t0 with tm_isdst := d, tm_gmtoff := o } = s + o
      rw [show TIMEGM { t0 with tm_isdst := d, tm_gmtoff := o } = TIMEGM t0 from rfl,
        TIMEGM_GMTIME (s + o) t0 hg]

theorem localtime_offset_is_applied_shift_witness :
    LOCALTIME zrEast 0 = some tmEast ∧
    ((rust_time_localtime zrEast 0 5 rtmPrior).1 = 1 ∧
      rust_time_timegm (rust_time_localtime zrEast 0 5 rtmPrior).2 =
        0 + (rust_time_localtime zrEast 0 5 rtmPrior).2.tm_utcoff) :=
  ⟨by decide, localtime_offset_is_applied_shift zrEast 0 5 rtmPrior tmEast (by decide)⟩

/-- C9: the Android fallback timegm restores the TZ environment variable to
its prior value before returning, restoring the original string when TZ was
set and unsetting it when it was not, while the computation itself runs with
TZ set to the empty string. -/
theorem timegm_fallback_restores_tz (mk : Option String → tm → Int)
    (env : Option String) (t : tm) :
    (timegm mk env t).2 = env ∧ (timegm mk env t).1 = mk (some "") t := by
  cases env <;> exact ⟨rfl, rfl⟩

/-- C10: when the platform LOCALTIME call returns a null result,
rust_time_localtime returns before writing, so the caller's output record
keeps exactly its prior contents. -/
theorem localtime_failure_preserves_output (zr : ZoneRule) (s n : Int)
    (ptr : rust_time_tm) (h : LOCALTIME zr s = none) :
    (rust_time_localtime zr s n ptr).2 = ptr := by
  unfold rust_time_localtime
  rw [h]

theorem localtime_failure_preserves_output_witness :
    LOCALTIME zrNone 0 = none ∧
    (rust_time_localtime zrNone 0 0 rtmPrior).2 = rtmPrior :=
  ⟨by decide, localtime_failure_preserves_output zrNone 0 0 rtmPrior (by decide)⟩
